import Mathlib

/-!
Verification development for the ampscz-anonymize repository.

The four scripts under `src/anonymizer/scripts/` are shallowly embedded here:
Python dicts become association lists (`List (String × α)`) with first-match
lookup and replace-or-append insertion; the ambient `random` stream becomes an
explicit generator parameter `gen : Nat → String` (the stream of outputs of
`random.choices`); the unbounded collision-retry `while` loops become
fuel-bounded searches returning `Option`; pandas cells (read with `dtype=str`)
become `Option String`, with `none` modelling NaN.
-/

namespace Ampscz

/-- A cell of a CSV table read with `dtype=str`: `none` models pandas NaN. -/
abbrev Cell := Option String

/-- A data-frame row: association of column name to cell. -/
abbrev Row := List (String × Cell)

/-- A string-valued Python dict, as an ordered association list. -/
abbrev SMap := List (String × String)

/-- Dict lookup (`m[k]` / `k in m`): first entry with matching key. -/
def lookupS {α : Type} : List (String × α) → String → Option α
  | [], _ => none
  | p :: t, k => if p.1 = k then some p.2 else lookupS t k

/-- Dict assignment `m[k] = v`: replace the first matching entry or append. -/
def dinsert {α : Type} : List (String × α) → String → α → List (String × α)
  | [], k, v => [(k, v)]
  | p :: t, k, v => if p.1 = k then (k, v) :: t else p :: dinsert t k v

/-- `m.update(entries)`: assign every entry of `entries` into `m`, in order. -/
def dictUpdate {α : Type} (m entries : List (String × α)) : List (String × α) :=
  entries.foldl (fun acc p => dinsert acc p.1 p.2) m

/-- The keys of a dict, in order. -/
def keysOf {α : Type} (m : List (String × α)) : List String :=
  m.map (fun p => p.1)

/-- `m.values()`, in order. -/
def valsOf {α : Type} (m : List (String × α)) : List α :=
  m.map (fun p => p.2)

/-! ### String primitives

Python's `str.split(sep)`, `str.endswith`, `str.lower`, digit tests and
digit-string parsing, modelled directly on character lists. -/

/-- `str.split(sep)` for a one-character separator: splits at every
occurrence, keeping empty segments, and yields one (empty) segment for the
empty string. -/
def splitOnChar (sep : Char) : List Char → List (List Char)
  | [] => [[]]
  | c :: rest =>
    match splitOnChar sep rest with
    | [] => [[c]]
    | h :: t => if c = sep then [] :: h :: t else (c :: h) :: t

/-- `s.split(sep)` on strings. -/
def pySplit (s : String) (sep : Char) : List String :=
  (splitOnChar sep s.data).map (fun cs => String.mk cs)

/-- `s.endswith(t)`. -/
def strEndsWith (s t : String) : Bool :=
  t.data.isSuffixOf s.data

def lowerChar (c : Char) : Char :=
  if 'A' ≤ c ∧ c ≤ 'Z' then Char.ofNat (c.toNat + 32) else c

/-- `s.lower()`. -/
def lowerStr (s : String) : String :=
  String.mk (s.data.map lowerChar)

/-- The numeric value of a list of decimal digits. -/
def digitsVal (cs : List Char) : Nat :=
  cs.foldl (fun a c => a * 10 + (c.toNat - 48)) 0

/-! ### Stage 1/2: pseudonymous-ID generation (1_generate_site_maps.py,
2_generate_subject_maps.py) -/

/-- The collision-retry loop shared by `get_anonymized_site_id` and
`get_anonymized_subject_id`: draw candidates `cand k`, `cand (k+1)`, … from the
random stream until one is not among the already assigned values `used`.
The Python loop is unbounded; `fuel` bounds it here, `none` meaning
exhaustion.  Returns the fresh code and the next stream position. -/
def freshCode (cand : Nat → String) (used : List String) : Nat → Nat → Option (String × Nat)
  | _, 0 => none
  | k, fuel + 1 =>
    if cand k ∈ used then freshCode cand used (k + 1) fuel
    else some (cand k, k + 1)

/-- `get_anonymized_site_id` (1_generate_site_maps.py, lines 55-76): return the
existing code if `site` is already mapped, otherwise a fresh random 2-letter
code (`generate_site_id` outputs are the stream `gen`). -/
def getAnonymizedSiteId (gen : Nat → String) (site : String) (siteMap : SMap)
    (k fuel : Nat) : Option (String × Nat) :=
  match lookupS siteMap site with
  | some v => some (v, k)
  | none => freshCode gen (valsOf siteMap) k fuel

/-- The loop body of `get_site_map` (1_generate_site_maps.py, lines 79-95). -/
def getSiteMapAux (gen : Nat → String) : List String → SMap → Nat → Nat → Option SMap
  | [], m, _, _ => some m
  | s :: rest, m, k, fuel =>
    match getAnonymizedSiteId gen s m k fuel with
    | none => none
    | some (v, k') => getSiteMapAux gen rest (dinsert m s v) k' fuel

/-- `get_site_map` (1_generate_site_maps.py, lines 79-95): assign every site an
anonymized id, checking each candidate against the values already assigned. -/
def getSiteMap (gen : Nat → String) (sites : List String) (fuel : Nat) : Option SMap :=
  getSiteMapAux gen sites [] 0 fuel

/-- `get_anonymized_subject_id` (2_generate_subject_maps.py, lines 56-92):
existing mapping is reused; otherwise the first 2 characters of the subject id
are looked up in the site map (`KeyError`, modelled as `none`, if absent) and a
code `anonymized_site_id ++ generate_subject_id()` is drawn until it is not
among the values of the subject map. -/
def getAnonymizedSubjectId (gen : Nat → String) (subject : String)
    (subjectMap siteMap : SMap) (k fuel : Nat) : Option (String × Nat) :=
  match lookupS subjectMap subject with
  | some v => some (v, k)
  | none =>
    match lookupS siteMap (subject.take 2) with
    | none => none
    | some sv => freshCode (fun j => sv ++ gen j) (valsOf subjectMap) k fuel

/-- The loop body of `get_subject_map` (2_generate_subject_maps.py, lines 95-114). -/
def getSubjectMapAux (gen : Nat → String) (siteMap : SMap) :
    List String → SMap → Nat → Nat → Option SMap
  | [], m, _, _ => some m
  | s :: rest, m, k, fuel =>
    match getAnonymizedSubjectId gen s m siteMap k fuel with
    | none => none
    | some (v, k') => getSubjectMapAux gen siteMap rest (dinsert m s v) k' fuel

/-- `get_subject_map` (2_generate_subject_maps.py, lines 95-114). -/
def getSubjectMap (gen : Nat → String) (subjects : List String) (siteMap : SMap)
    (fuel : Nat) : Option SMap :=
  getSubjectMapAux gen siteMap subjects [] 0 fuel

/-- The literal organizational passthrough assignments of `generate_subject_map`
(2_generate_subject_maps.py, lines 219-223), in source order. -/
def literalEntries : SMap :=
  [("AMPSCZ", "AMPSCZ"), ("Prescient", "Prescient"), ("ProNET", "ProNET"),
   ("PRESCIENT", "Prescient"), ("PRONET", "ProNET")]

/-- `add_sites_to_subject_map` (2_generate_subject_maps.py, lines 162-178):
copy every site-map entry into the subject map. -/
def addSitesToSubjectMap (subjectMap siteMap : SMap) : SMap :=
  siteMap.foldl (fun m p => dinsert m p.1 p.2) subjectMap

/-- The in-memory map built by `generate_subject_map`
(2_generate_subject_maps.py, lines 218-226): generated subject codes, then the
literal organizational passthroughs, then the copied site-map entries. -/
def generateSubjectMapCore (gen : Nat → String) (subjects : List String)
    (siteMap : SMap) (fuel : Nat) : Option SMap :=
  match getSubjectMap gen subjects siteMap fuel with
  | none => none
  | some sm =>
    some (addSitesToSubjectMap
      (literalEntries.foldl (fun m p => dinsert m p.1 p.2) sm) siteMap)

/-! ### Stage 3: date-offset consolidation (3_consolidate_dates.py) -/

/-- A `(subject, days)` row of a date-offset source table. -/
abbrev DateRow := String × Int

/-- `get_subject_date_offset_map` (3_consolidate_dates.py, lines 44-63): for
each subject, in order of first appearance (`df["subject"].unique()`), record
the `days` value of its first matching row. -/
def getSubjectDateOffsetMap (rows : List DateRow) : List (String × Int) :=
  rows.foldl (fun m p => if (lookupS m p.1).isSome then m else m ++ [p]) []

/-- The fixed candidate set for addon day offsets
(3_consolidate_dates.py, line 81). -/
def possibleOffsets : List Int := [-14, -7, 7, 14]

/-- `get_addons_subjects` of 3_consolidate_dates.py (lines 66-84): each addon
subject is assigned `choice i`, the i-th draw of `random.choice(possible_offsets)`. -/
def getAddonsSubjectsDates (addons : List String) (choice : Nat → Int) :
    List (String × Int) :=
  (addons.enum).map (fun p => (p.2, choice p.1))

/-- The in-memory map built by `generate_subject_map` of 3_consolidate_dates.py
(lines 106-118): `dict.update` of each source's offset map in order, then
`dict.update` of the addon draws. -/
def consolidateDates (sources : List (List DateRow)) (addons : List String)
    (choice : Nat → Int) : List (String × Int) :=
  let merged := sources.foldl
    (fun acc src => dictUpdate acc (getSubjectDateOffsetMap src)) []
  dictUpdate merged (getAddonsSubjectsDates addons choice)

/-- The last `some` produced by `f` along a list (`none` if every element gives
`none`). -/
def lastSome? {β γ : Type} (f : β → Option γ) (l : List β) : Option γ :=
  l.foldl (fun a b => match f b with | some d => some d | none => a) none

/-- The `days` value of the first row matching subject `p` in one source. -/
def firstDays (rows : List DateRow) (p : String) : Option Int :=
  lookupS rows p

/-- Modelled from the spec wording of 4.3 (for comparison with
`consolidateDates`): the first matching row value of the last source, in the
given order, that declares subject `p`. -/
def lastDeclaring (sources : List (List DateRow)) (p : String) : Option Int :=
  lastSome? (fun src => firstDays src p) sources

/-! ### Calendar and timestamp model for 5_anonymize.py

`pd.to_datetime` / `pd.DateOffset(days=...)` / `strftime` are library calls;
they are modelled on proleptic-Gregorian civil dates, with parsing restricted
to the ISO forms `YYYY-MM-DD` and `YYYY-MM-DD HH:MM:SS` (any other cell raises
`ValueError` in the script and is returned unchanged; such cells are `none`
under `parseDateTime` here). -/

structure DateTime where
  year : Int
  month : Int
  day : Int
  hour : Int
  minute : Int
  second : Int
deriving DecidableEq

/-- Days since 1970-01-01 of a civil date (proleptic Gregorian). -/
def daysFromCivil (y m d : Int) : Int :=
  let y2 := if m ≤ 2 then y - 1 else y
  let era := Int.ediv y2 400
  let yoe := y2 - era * 400
  let mp := Int.emod (m + 9) 12
  let doy := Int.ediv (153 * mp + 2) 5 + d - 1
  let doe := yoe * 365 + Int.ediv yoe 4 - Int.ediv yoe 100 + doy
  era * 146097 + doe - 719468

/-- Civil date of a count of days since 1970-01-01 (proleptic Gregorian). -/
def civilFromDays (z0 : Int) : Int × Int × Int :=
  let z := z0 + 719468
  let era := Int.ediv z 146097
  let doe := z - era * 146097
  let yoe := Int.ediv
    (doe - Int.ediv doe 1460 + Int.ediv doe 36524 - Int.ediv doe 146096) 365
  let y := yoe + era * 400
  let doy := doe - (365 * yoe + Int.ediv yoe 4 - Int.ediv yoe 100)
  let mp := Int.ediv (5 * doy + 2) 153
  let d := doy - Int.ediv (153 * mp + 2) 5 + 1
  let m := mp + (if mp < 10 then 3 else -9)
  (y + (if m ≤ 2 then 1 else 0), m, d)

/-- `ts + pd.DateOffset(days=off)`: shift the calendar date, keep the time. -/
def addDays (dt : DateTime) (off : Int) : DateTime :=
  let c := civilFromDays (daysFromCivil dt.year dt.month dt.day + off)
  { dt with year := c.1, month := c.2.1, day := c.2.2 }

def isLeapYear (y : Int) : Bool :=
  (Int.emod y 4 == 0 && Int.emod y 100 != 0) || Int.emod y 400 == 0

def daysInMonth (y m : Int) : Int :=
  if m = 2 then (if isLeapYear y then 29 else 28)
  else if m = 4 ∨ m = 6 ∨ m = 9 ∨ m = 11 then 30
  else 31

/-- A fixed-width all-digit numeric field. -/
def parseNatField (s : String) (len : Nat) : Option Int :=
  if s.length = len ∧ s.data.all Char.isDigit then some (Int.ofNat (digitsVal s.data))
  else none

def parseDate (s : String) : Option (Int × Int × Int) :=
  match pySplit s '-' with
  | [ys, ms, ds] =>
    match parseNatField ys 4, parseNatField ms 2, parseNatField ds 2 with
    | some y, some m, some d =>
      if 1 ≤ m ∧ m ≤ 12 ∧ 1 ≤ d ∧ d ≤ daysInMonth y m then some (y, m, d) else none
    | _, _, _ => none
  | _ => none

def parseTime (s : String) : Option (Int × Int × Int) :=
  match pySplit s ':' with
  | [hs, ms, ss] =>
    match parseNatField hs 2, parseNatField ms 2, parseNatField ss 2 with
    | some h, some mi, some se =>
      if h ≤ 23 ∧ mi ≤ 59 ∧ se ≤ 59 then some (h, mi, se) else none
    | _, _, _ => none
  | _ => none

/-- `pd.to_datetime` on the ISO forms accepted by this model. -/
def parseDateTime (s : String) : Option DateTime :=
  match pySplit s ' ' with
  | [d] => (parseDate d).map (fun t => ⟨t.1, t.2.1, t.2.2, 0, 0, 0⟩)
  | [d, t] =>
    match parseDate d, parseTime t with
    | some a, some b => some ⟨a.1, a.2.1, a.2.2, b.1, b.2.1, b.2.2⟩
    | _, _ => none
  | _ => none

def pad2 (n : Int) : String :=
  if n < 10 then "0" ++ toString n else toString n

def pad4 (n : Int) : String :=
  if n < 10 then "000" ++ toString n
  else if n < 100 then "00" ++ toString n
  else if n < 1000 then "0" ++ toString n
  else toString n

/-- `strftime("%Y-%m-%d")`. -/
def formatDate (dt : DateTime) : String :=
  pad4 dt.year ++ "-" ++ pad2 dt.month ++ "-" ++ pad2 dt.day

/-- `strftime("%H:%M:%S")`. -/
def formatTime (dt : DateTime) : String :=
  pad2 dt.hour ++ ":" ++ pad2 dt.minute ++ ":" ++ pad2 dt.second

/-- `strftime("%Y-%m-%d %H:%M:%S")`. -/
def formatDateTime (dt : DateTime) : String :=
  formatDate dt ++ " " ++ formatTime dt

/-! ### Stage 5: anonymization (5_anonymize.py) -/

/-- `col in row` for a pandas row (distinguishes `KeyError` from a NaN value). -/
def hasCol (r : Row) (c : String) : Bool :=
  (lookupS r c).isSome

/-- `row[col]` when the column exists; `none` (NaN) also when it does not. -/
def getCell (r : Row) (c : String) : Cell :=
  (lookupS r c).getD none

/-- Whole-column assignment at the row level: replace the cell of every entry
named `c`. A row lacking the column is left unchanged. -/
def setCell : Row → String → Cell → Row
  | [], _, _ => []
  | p :: t, c, v => (if p.1 = c then (c, v) else p) :: setCell t c v

/-- The date-shifting core of `get_anonymized_date` (5_anonymize.py, lines
84-109), after the owning subject has been resolved: parse the cell, add the
offset, and re-serialize (`%H:%M:%S` for the literal column `timeofday`, a full
timestamp when the shifted value carries a non-midnight time, a bare date
otherwise); a cell that fails to parse (`ValueError`) is returned unchanged. -/
def shiftCell (cell : Cell) (col : String) (off : Int) : Cell :=
  match cell with
  | none => cell
  | some d =>
    match parseDateTime d with
    | none => cell
    | some dt =>
      let ndt := addDays dt off
      if col = "timeofday" then some (formatTime ndt)
      else if ¬ (ndt.hour = 0 ∧ ndt.minute = 0 ∧ ndt.second = 0) then
        some (formatDateTime ndt)
      else some (formatDate ndt)

/-- `get_anonymized_date` (5_anonymize.py, lines 84-109) once the subject cell
is fixed: a NaN subject or a subject absent from the offset map returns the
date cell unchanged (with a deduplicated warning in the script). -/
def applyOffsetResolved (subjCell : Cell) (row : Row) (col : String)
    (offsets : List (String × Int)) : Cell :=
  match subjCell with
  | none => getCell row col
  | some subj =>
    match lookupS offsets subj with
    | none => getCell row col
    | some off => shiftCell (getCell row col) col off

/-- `get_anonymized_date` (5_anonymize.py, lines 56-109).  The filename-derived
`subject_id` is used when it is exactly 7 characters; otherwise the row's
`subject_id` column is read, and a `KeyError` (column absent) returns
`row[col]` unchanged. -/
def getAnonymizedDate (row : Row) (col : String) (offsets : List (String × Int))
    (subjectId : Option String) : Cell :=
  match subjectId with
  | some sid =>
    if sid.length = 7 then applyOffsetResolved (some sid) row col offsets
    else if hasCol row "subject_id" then
      applyOffsetResolved (getCell row "subject_id") row col offsets
    else getCell row col
  | none =>
    if hasCol row "subject_id" then
      applyOffsetResolved (getCell row "subject_id") row col offsets
    else getCell row col

/-- `get_subject_id_from_filename` (5_anonymize.py, lines 112-132): the second
hyphen-delimited segment, or `None` (`IndexError`) if there is no hyphen. -/
def getSubjectIdFromFilename (fileName : String) : Option String :=
  match pySplit fileName '-' with
  | _ :: subject :: _ => some subject
  | _ => none

/-- `generate_anoymized_file_name` (5_anonymize.py, lines 135-176).
`parts[1]` raises `IndexError` only when the name has no hyphen; in that case
names ending in `metadata.csv` pass through and anything else is a
`ValueError`.  Otherwise the first segment is mapped through the site map and
the second through the subject map, a missing entry raising `ValueError`. -/
def generateAnoymizedFileName (fileName : String) (subjectMap siteMap : SMap) :
    Except String String :=
  let parts := pySplit fileName '-'
  if parts.length < 2 then
    if strEndsWith fileName "metadata.csv" then Except.ok fileName
    else Except.error ("Invalid file name: " ++ fileName)
  else
    let site := parts.headD ""
    let subject := parts.getD 1 ""
    let others := String.intercalate "-" (parts.drop 2)
    match lookupS siteMap site with
    | none => Except.error ("Invalid site: " ++ site)
    | some siteId =>
      match lookupS subjectMap subject with
      | none => Except.error ("Invalid subject: " ++ subject)
      | some subjectId => Except.ok (siteId ++ "-" ++ subjectId ++ "-" ++ others)

/-- A pandas data frame: column names and keyed rows. -/
structure Df where
  cols : List String
  rows : List Row
deriving DecidableEq

/-- Case-insensitive substring test on char lists. -/
def hasSubstr (sub : List Char) : List Char → Bool
  | [] => sub.isEmpty
  | c :: t => sub.isPrefixOf (c :: t) || hasSubstr sub t

/-- `"subject" in c.lower()`: the column-name heuristic of the scripts. -/
def isSubjectCol (c : String) : Bool :=
  hasSubstr "subject".data (lowerStr c).data

/-- One row under `df[c].map(m)`: a mapped value, or NaN when the original
value is NaN or absent from `m`. -/
def colMapRow (m : SMap) (c : String) (r : Row) : Row :=
  setCell r c (match getCell r c with
    | none => none
    | some v => lookupS m v)

/-- The date loop of `anonymize_df` (5_anonymize.py, lines 218-224): each
column in turn is replaced by `get_anonymized_date` applied to the current
rows. -/
def dateShiftStep (offsets : List (String × Int)) (sid : Option String) :
    List String → List Row → List Row
  | [], rows => rows
  | c :: rest, rows =>
    dateShiftStep offsets sid rest
      (rows.map (fun r => setCell r c (getAnonymizedDate r c offsets sid)))

/-- The subject loop of `anonymize_df` (5_anonymize.py, lines 227-244): for
each column whose name contains "subject", map values through the subject map
and drop the rows whose mapped value is NaN (`dropna(subset=[col])`). -/
def subjectStep (sm : SMap) : List String → List Row → List Row
  | [], rows => rows
  | c :: rest, rows =>
    subjectStep sm rest
      ((rows.map (colMapRow sm c)).filter (fun r => (getCell r c).isSome))

/-- The site step of `anonymize_df` (5_anonymize.py, lines 246-250):
`df["site"] = df["site"].map(site_map)` when the column exists (`KeyError`
passes otherwise); no rows are dropped. -/
def siteStep (stm : SMap) (cols : List String) (rows : List Row) : List Row :=
  if "site" ∈ cols then rows.map (colMapRow stm "site") else rows

/-- `anonymize_df` (5_anonymize.py, lines 195-252). -/
def anonymizeDf (df : Df) (sm stm : SMap) (offsets : List (String × Int))
    (sid : Option String) : Df :=
  { df with rows :=
      (siteStep stm df.cols
        (subjectStep sm (df.cols.filter isSubjectCol)
          (dateShiftStep offsets sid df.cols df.rows))) }

/-- Row-level date shifting (same cells as `dateShiftStep`, one row at a time). -/
def dateShiftRow (offsets : List (String × Int)) (sid : Option String) :
    List String → Row → Row
  | [], r => r
  | c :: rest, r =>
    dateShiftRow offsets sid rest (setCell r c (getAnonymizedDate r c offsets sid))

/-- The fate of one row at one subject column: the row dies (`none`) when the
value is NaN or unmapped, and otherwise carries the mapped value. -/
def subjectRowStep (sm : SMap) (c : String) (r : Row) : Option Row :=
  match getCell r c with
  | none => none
  | some v =>
    match lookupS sm v with
    | none => none
    | some w => some (setCell r c (some w))

/-- Row-level subject substitution across all subject columns. -/
def subjectRow (sm : SMap) : List String → Row → Option Row
  | [], r => some r
  | c :: rest, r => (subjectRowStep sm c r).bind (subjectRow sm rest)

/-- Row-level site substitution. -/
def siteRow (stm : SMap) (cols : List String) (r : Row) : Row :=
  if "site" ∈ cols then colMapRow stm "site" r else r

/-- The per-row meaning of `anonymize_df`: date shift, then subject
substitution (possibly dropping the row), then site substitution. -/
def anonymizeRowSpec (cols : List String) (sm stm : SMap)
    (offsets : List (String × Int)) (sid : Option String) (r : Row) : Option Row :=
  (subjectRow sm (cols.filter isSubjectCol) (dateShiftRow offsets sid cols r)).map
    (siteRow stm cols)

/-- `anonymize_csv` (5_anonymize.py, lines 255-294) on in-memory data: the
anonymized frame and rewritten name, or `none` when the filename rewrite
raises `ValueError` (file skipped with a warning, no output written). -/
def anonymizeCsv (fileName : String) (df : Df) (sm stm : SMap)
    (offsets : List (String × Int)) : Option (String × Df) :=
  let sid := getSubjectIdFromFilename fileName
  let df2 := anonymizeDf df sm stm offsets sid
  match generateAnoymizedFileName fileName sm stm with
  | Except.error _ => none
  | Except.ok newName => some (newName, df2)

/-- The walk of `anonymize_data` (5_anonymize.py, lines 297-338): every `.csv`
file is processed independently; skipped files contribute no output and the
walk continues. -/
def anonymizeData (files : List (String × Df)) (sm stm : SMap)
    (offsets : List (String × Int)) : List (String × Df) :=
  files.filterMap (fun f =>
    if strEndsWith f.1 ".csv" then anonymizeCsv f.1 f.2 sm stm offsets else none)

/-! ### Stage pipelines with declared sources (for the missing-source
behavior of 1_generate_site_maps.py, 2_generate_subject_maps.py and
3_consolidate_dates.py) -/

/-- A declared source path together with the table behind it. -/
structure Source (α : Type) where
  pathExists : Bool
  table : α

/-- The source loop shared by the map-building stages: each declared source is
checked with `source.exists()` before it is read, and a missing one raises
`FileNotFoundError`, aborting the stage. -/
def readAll {α : Type} : List (Source α) → Except String (List α)
  | [] => Except.ok []
  | s :: rest =>
    if s.pathExists then (readAll rest).map (fun ts => s.table :: ts)
    else Except.error "Source does not exist"

def isError {ε α : Type} : Except ε α → Bool
  | Except.error _ => true
  | Except.ok _ => false

/-- Python `set.add`, on ordered duplicate-free lists. -/
def setInsert (l : List String) (x : String) : List String :=
  if x ∈ l then l else l ++ [x]

/-- `get_all_sites` (1_generate_site_maps.py, lines 98-126): the set of
2-character prefixes of the subjects of one source. -/
def sitesOf (subjects : List String) : List String :=
  subjects.foldl (fun acc s => setInsert acc (s.take 2)) []

/-- `generate_site_map` (1_generate_site_maps.py, lines 129-172): read all
declared sources (fatal error on a missing one, before any output exists),
collect the site set, build the map, add the `combined` passthrough, and under
the skip policy force every site to itself. -/
def generateSiteMapStage (gen : Nat → String) (sources : List (Source (List String)))
    (skip : Bool) (fuel : Nat) : Except String SMap :=
  match readAll sources with
  | Except.error e => Except.error e
  | Except.ok tables =>
    let sites := tables.foldl (fun acc t => (sitesOf t).foldl setInsert acc) []
    match getSiteMap gen sites fuel with
    | none => Except.error "retry budget exhausted"
    | some m0 =>
      let m1 := dinsert m0 "combined" "combined"
      Except.ok (if skip then sites.foldl (fun mm s => dinsert mm s s) m1 else m1)

/-- `generate_subject_map` (2_generate_subject_maps.py, lines 181-231): read
all declared sources (fatal error on a missing one), merge in the addon
subjects, and build the combined subject map. -/
def generateSubjectMapStage (gen : Nat → String)
    (sources : List (Source (List String))) (addons : List String)
    (siteMap : SMap) (fuel : Nat) : Except String SMap :=
  match readAll sources with
  | Except.error e => Except.error e
  | Except.ok tables =>
    let subjects := addons.foldl setInsert
      (tables.foldl (fun acc t => t.foldl setInsert acc) [])
    match generateSubjectMapCore gen subjects siteMap fuel with
    | none => Except.error "site id not found in site map"
    | some m => Except.ok m

/-- `generate_subject_map` of 3_consolidate_dates.py (lines 87-123): read all
declared sources (fatal error on a missing one), then merge and add addons. -/
def consolidateDatesStage (sources : List (Source (List DateRow)))
    (addons : List String) (choice : Nat → Int) : Except String (List (String × Int)) :=
  match readAll sources with
  | Except.error e => Except.error e
  | Except.ok tables =>
    let merged := tables.foldl
      (fun acc src => dictUpdate acc (getSubjectDateOffsetMap src)) []
    Except.ok (dictUpdate merged (getAddonsSubjectsDates addons choice))

/-! ## Theorems -/

/-! ### Association-list basics -/

theorem keysOf_cons {α : Type} (p : String × α) (t : List (String × α)) :
    keysOf (p :: t) = p.1 :: keysOf t := rfl

theorem valsOf_cons {α : Type} (p : String × α) (t : List (String × α)) :
    valsOf (p :: t) = p.2 :: valsOf t := rfl

theorem lookupS_eq_none_of_not_mem {α : Type} {m : List (String × α)} {k : String}
    (h : k ∉ keysOf m) : lookupS m k = none := by
  induction m with
  | nil => rfl
  | cons p t ih =>
    rw [keysOf_cons] at h
    simp only [List.mem_cons] at h
    push_neg at h
    rw [lookupS, if_neg (fun he => h.1 he.symm)]
    exact ih h.2

theorem lookupS_isSome_of_mem_keys {α : Type} {m : List (String × α)} {k : String}
    (h : k ∈ keysOf m) : ∃ v, lookupS m k = some v := by
  induction m with
  | nil => simp [keysOf] at h
  | cons p t ih =>
    by_cases hpk : p.1 = k
    · exact ⟨p.2, by simp [lookupS, hpk]⟩
    · have : k ∈ keysOf t := by
        simpa [keysOf, hpk, Ne.symm, eq_comm] using h
      obtain ⟨v, hv⟩ := ih this
      exact ⟨v, by simp [lookupS, hpk, hv]⟩

theorem mem_of_lookupS_eq_some {α : Type} {m : List (String × α)} {k : String}
    {v : α} (h : lookupS m k = some v) : (k, v) ∈ m := by
  induction m with
  | nil => simp [lookupS] at h
  | cons p t ih =>
    by_cases hpk : p.1 = k
    · rw [lookupS, if_pos hpk] at h
      have hv := Option.some.inj h
      have hp : p = (k, v) := Prod.ext hpk hv
      rw [← hp]
      exact List.mem_cons_self p t
    · rw [lookupS, if_neg hpk] at h
      exact List.mem_cons_of_mem _ (ih h)

theorem dinsert_eq_append {α : Type} {m : List (String × α)} {k : String}
    (h : k ∉ keysOf m) (v : α) : dinsert m k v = m ++ [(k, v)] := by
  induction m with
  | nil => rfl
  | cons p t ih =>
    rw [keysOf_cons] at h
    simp only [List.mem_cons] at h
    push_neg at h
    rw [dinsert, if_neg (fun he => h.1 he.symm), ih h.2]
    rfl

theorem lookupS_append {α : Type} (m1 m2 : List (String × α)) (k : String) :
    lookupS (m1 ++ m2) k =
      match lookupS m1 k with
      | some v => some v
      | none => lookupS m2 k := by
  induction m1 with
  | nil => simp [lookupS]
  | cons p t ih =>
    by_cases hpk : p.1 = k
    · simp [lookupS, hpk]
    · simp [lookupS, hpk, ih]

theorem lookupS_dinsert {α : Type} (m : List (String × α)) (k : String) (v : α)
    (k' : String) :
    lookupS (dinsert m k v) k' = if k' = k then some v else lookupS m k' := by
  induction m with
  | nil =>
    by_cases h : k' = k
    · simp [dinsert, lookupS, h]
    · simp [dinsert, lookupS, h, Ne.symm h]
  | cons p t ih =>
    by_cases hpk : p.1 = k
    · by_cases hk : k' = k
      · simp [dinsert, lookupS, hpk, hk]
      · simp [dinsert, lookupS, hpk, hk, Ne.symm hk]
    · by_cases hk : k' = k
      · subst hk
        simp [dinsert, lookupS, hpk, ih]
      · simp [dinsert, lookupS, hpk, hk, ih]

theorem keysOf_append {α : Type} (m1 m2 : List (String × α)) :
    keysOf (m1 ++ m2) = keysOf m1 ++ keysOf m2 := by
  simp [keysOf]

theorem valsOf_append {α : Type} (m1 m2 : List (String × α)) :
    valsOf (m1 ++ m2) = valsOf m1 ++ valsOf m2 := by
  simp [valsOf]

theorem map_nodup_entry_ne {α β : Type} (f : α → β) :
    ∀ l : List α, (l.map f).Nodup → ∀ a ∈ l, ∀ b ∈ l, a ≠ b → f a ≠ f b := by
  intro l
  induction l with
  | nil => intro _ a ha; simp at ha
  | cons x t ih =>
    intro hnd a ha b hb hab
    simp only [List.map_cons, List.nodup_cons] at hnd
    rcases List.mem_cons.mp ha with rfl | ha' <;>
      rcases List.mem_cons.mp hb with rfl | hb'
    · exact absurd rfl hab
    · exact fun he => hnd.1 (he ▸ List.mem_map_of_mem f hb')
    · exact fun he => hnd.1 (he ▸ List.mem_map_of_mem f ha')
    · exact ih hnd.2 a ha' b hb' hab

/-! ### Freshness of generated codes -/

theorem freshCode_spec (cand : Nat → String) (used : List String) :
    ∀ fuel k c k', freshCode cand used k fuel = some (c, k') →
      c ∉ used ∧ ∃ j, c = cand j := by
  intro fuel
  induction fuel with
  | zero => intro k c k' h; simp [freshCode] at h
  | succ n ih =>
    intro k c k' h
    rw [freshCode] at h
    by_cases hu : cand k ∈ used
    · rw [if_pos hu] at h
      exact ih (k + 1) c k' h
    · rw [if_neg hu] at h
      obtain ⟨rfl, rfl⟩ : cand k = c ∧ k + 1 = k' := by
        constructor <;> cases h <;> rfl
      exact ⟨hu, k, rfl⟩

/-! ### Site-map builder invariant -/

theorem getSiteMapAux_inv (gen : Nat → String) :
    ∀ (sites : List String) (m : SMap) (k fuel : Nat) (m' : SMap),
      getSiteMapAux gen sites m k fuel = some m' →
      sites.Nodup → (∀ s ∈ sites, s ∉ keysOf m) → (valsOf m).Nodup →
      keysOf m' = keysOf m ++ sites ∧ (valsOf m').Nodup ∧
        ∀ p ∈ m', p ∈ m ∨ (p.1 ∈ sites ∧ ∃ j, p.2 = gen j) := by
  intro sites
  induction sites with
  | nil =>
    intro m k fuel m' h _ _ hv
    have hm : m = m' := by simpa [getSiteMapAux] using h
    subst hm
    exact ⟨by simp, hv, fun p hp => Or.inl hp⟩
  | cons s rest ih =>
    intro m k fuel m' h hnd hdisj hv
    have hs : s ∉ keysOf m := hdisj s (List.mem_cons_self s rest)
    have hlk : lookupS m s = none := lookupS_eq_none_of_not_mem hs
    have hstep : getSiteMapAux gen (s :: rest) m k fuel
        = match freshCode gen (valsOf m) k fuel with
          | none => none
          | some (v, k') => getSiteMapAux gen rest (dinsert m s v) k' fuel := by
      rw [getSiteMapAux, getAnonymizedSiteId, hlk]
    rw [hstep] at h
    cases hf : freshCode gen (valsOf m) k fuel with
    | none =>
      rw [hf] at h
      exact Option.noConfusion h
    | some vk =>
      obtain ⟨v, k'⟩ := vk
      rw [hf] at h
      replace h : getSiteMapAux gen rest (dinsert m s v) k' fuel = some m' := h
      obtain ⟨hvnot, j, hvj⟩ := freshCode_spec gen (valsOf m) fuel k v k' hf
      have hins : dinsert m s v = m ++ [(s, v)] := dinsert_eq_append hs v
      rw [hins] at h
      have hnd' : rest.Nodup := (List.nodup_cons.mp hnd).2
      have hsrest : s ∉ rest := (List.nodup_cons.mp hnd).1
      have hdisj' : ∀ t ∈ rest, t ∉ keysOf (m ++ [(s, v)]) := by
        intro t ht
        rw [keysOf_append]
        simp only [List.mem_append]
        rintro (htm | hts)
        · exact hdisj t (List.mem_cons_of_mem s ht) htm
        · have : t = s := by simpa [keysOf] using hts
          exact hsrest (this ▸ ht)
      have hv' : (valsOf (m ++ [(s, v)])).Nodup := by
        rw [valsOf_append]
        simp only [List.nodup_append]
        refine ⟨hv, by simp [valsOf], ?_⟩
        intro x hx
        simp only [valsOf, List.map_cons, List.map_nil, List.mem_singleton]
        intro hxv
        exact hvnot (hxv ▸ hx)
      obtain ⟨hk1, hk2, hk3⟩ := ih (m ++ [(s, v)]) k' fuel m' h hnd' hdisj' hv'
      refine ⟨?_, hk2, ?_⟩
      · rw [hk1, keysOf_append]
        simp [keysOf, List.append_assoc]
      · intro p hp
        rcases hk3 p hp with hpm | ⟨hps, hj⟩
        · rcases List.mem_append.mp hpm with hpm' | hpv
          · exact Or.inl hpm'
          · have : p = (s, v) := by simpa using hpv
            subst this
            exact Or.inr ⟨List.mem_cons_self s rest, j, hvj⟩
        · exact Or.inr ⟨List.mem_cons_of_mem s hps, hj⟩

/-- C2: for every finite set of facility codes (with the skip policy off,
i.e. the map produced by `get_site_map` before `generate_site_map` applies
`skip_site_map`), each facility is assigned a code of exactly 2 characters
from the 26-letter uppercase alphabet, and the assigned codes are pairwise
distinct across the input set. -/
theorem getSiteMap_valid_and_injective (gen : Nat → String) (sites : List String)
    (m : SMap) (fuel : Nat)
    (hgen : ∀ n, (gen n).length = 2 ∧
      ∀ c ∈ (gen n).data, c ∈ ("ABCDEFGHIJKLMNOPQRSTUVWXYZ" : String).data)
    (hnd : sites.Nodup) (hrun : getSiteMap gen sites fuel = some m) :
    (∀ s ∈ sites, ∃ v, lookupS m s = some v ∧ v.length = 2 ∧
      ∀ c ∈ v.data, c ∈ ("ABCDEFGHIJKLMNOPQRSTUVWXYZ" : String).data) ∧
    ∀ s t, s ∈ sites → t ∈ sites → s ≠ t → lookupS m s ≠ lookupS m t := by
  obtain ⟨hk, hvnd, hent⟩ :=
    getSiteMapAux_inv gen sites [] 0 fuel m hrun hnd (by simp [keysOf])
      (by simp [valsOf])
  have hkeys : keysOf m = sites := by simpa [keysOf] using hk
  have hvnd' : (m.map (fun p => p.2)).Nodup := hvnd
  constructor
  · intro s hs
    obtain ⟨v, hv⟩ := lookupS_isSome_of_mem_keys (m := m) (k := s) (hkeys ▸ hs)
    have hmem := mem_of_lookupS_eq_some hv
    rcases hent (s, v) hmem with hnilm | ⟨_, j, hvj⟩
    · simp at hnilm
    · obtain ⟨hlen, hchars⟩ := hgen j
      have hvj' : v = gen j := hvj
      exact ⟨v, hv, by rw [hvj']; exact hlen, by rw [hvj']; exact hchars⟩
  · intro s t hs ht hst
    obtain ⟨v, hv⟩ := lookupS_isSome_of_mem_keys (m := m) (k := s) (hkeys ▸ hs)
    obtain ⟨w, hw⟩ := lookupS_isSome_of_mem_keys (m := m) (k := t) (hkeys ▸ ht)
    rw [hv, hw]
    intro hvw
    have hveq : v = w := Option.some.inj hvw
    have hms := mem_of_lookupS_eq_some hv
    have hmt := mem_of_lookupS_eq_some hw
    have hne : (s, v) ≠ (t, w) := fun he => hst (congrArg Prod.fst he)
    exact map_nodup_entry_ne (fun p => p.2) m hvnd' (s, v) hms (t, w) hmt hne hveq

/-! ### Subject-map builder invariant -/

theorem getSubjectMapAux_inv (gen : Nat → String) (siteMap : SMap) :
    ∀ (subjects : List String) (m : SMap) (k fuel : Nat) (m' : SMap),
      getSubjectMapAux gen siteMap subjects m k fuel = some m' →
      subjects.Nodup → (∀ s ∈ subjects, s ∉ keysOf m) → (valsOf m).Nodup →
      keysOf m' = keysOf m ++ subjects ∧ (valsOf m').Nodup ∧
        ∀ p ∈ m', p ∈ m ∨ (p.1 ∈ subjects ∧ ∃ sv j,
          lookupS siteMap (p.1.take 2) = some sv ∧ p.2 = sv ++ gen j) := by
  intro subjects
  induction subjects with
  | nil =>
    intro m k fuel m' h _ _ hv
    have hm : m = m' := by simpa [getSubjectMapAux] using h
    subst hm
    exact ⟨by simp, hv, fun p hp => Or.inl hp⟩
  | cons s rest ih =>
    intro m k fuel m' h hnd hdisj hv
    have hs : s ∉ keysOf m := hdisj s (List.mem_cons_self s rest)
    have hlk : lookupS m s = none := lookupS_eq_none_of_not_mem hs
    cases hsv : lookupS siteMap (s.take 2) with
    | none =>
      have hstep : getSubjectMapAux gen siteMap (s :: rest) m k fuel = none := by
        rw [getSubjectMapAux, getAnonymizedSubjectId, hlk, hsv]
      rw [hstep] at h
      exact Option.noConfusion h
    | some sv =>
      have hstep : getSubjectMapAux gen siteMap (s :: rest) m k fuel
          = match freshCode (fun j => sv ++ gen j) (valsOf m) k fuel with
            | none => none
            | some (v, k') =>
              getSubjectMapAux gen siteMap rest (dinsert m s v) k' fuel := by
        rw [getSubjectMapAux, getAnonymizedSubjectId, hlk, hsv]
      rw [hstep] at h
      cases hf : freshCode (fun j => sv ++ gen j) (valsOf m) k fuel with
      | none =>
        rw [hf] at h
        exact Option.noConfusion h
      | some vk =>
        obtain ⟨v, k'⟩ := vk
        rw [hf] at h
        replace h : getSubjectMapAux gen siteMap rest (dinsert m s v) k' fuel
            = some m' := h
        obtain ⟨hvnot, j, hvj⟩ :=
          freshCode_spec (fun j => sv ++ gen j) (valsOf m) fuel k v k' hf
        have hins : dinsert m s v = m ++ [(s, v)] := dinsert_eq_append hs v
        rw [hins] at h
        have hnd' : rest.Nodup := (List.nodup_cons.mp hnd).2
        have hsrest : s ∉ rest := (List.nodup_cons.mp hnd).1
        have hdisj' : ∀ t ∈ rest, t ∉ keysOf (m ++ [(s, v)]) := by
          intro t ht
          rw [keysOf_append]
          simp only [List.mem_append]
          rintro (htm | hts)
          · exact hdisj t (List.mem_cons_of_mem s ht) htm
          · have : t = s := by simpa [keysOf] using hts
            exact hsrest (this ▸ ht)
        have hv' : (valsOf (m ++ [(s, v)])).Nodup := by
          rw [valsOf_append]
          simp only [List.nodup_append]
          refine ⟨hv, by simp [valsOf], ?_⟩
          intro x hx
          simp only [valsOf, List.map_cons, List.map_nil, List.mem_singleton]
          intro hxv
          exact hvnot (hxv ▸ hx)
        obtain ⟨hk1, hk2, hk3⟩ := ih (m ++ [(s, v)]) k' fuel m' h hnd' hdisj' hv'
        refine ⟨?_, hk2, ?_⟩
        · rw [hk1, keysOf_append]
          simp [keysOf, List.append_assoc]
        · intro p hp
          rcases hk3 p hp with hpm | ⟨hps, hj⟩
          · rcases List.mem_append.mp hpm with hpm' | hpv
            · exact Or.inl hpm'
            · have : p = (s, v) := by simpa using hpv
              subst this
              exact Or.inr ⟨List.mem_cons_self s rest, sv, j, hsv, hvj⟩
          · exact Or.inr ⟨List.mem_cons_of_mem s hps, hj⟩

/-- C1: for every set of participant codes (real and addon participants merged
into one input list) and any site map containing each participant's
2-character prefix, `get_subject_map` assigns each participant a code equal to
the site map's anonymized code for that prefix concatenated with a 5-character
suffix of digits 1-9 only, and the assigned codes are pairwise distinct. -/
theorem getSubjectMap_valid_and_injective (gen : Nat → String)
    (subjects : List String) (siteMap m : SMap) (fuel : Nat)
    (hgen : ∀ n, (gen n).length = 5 ∧
      ∀ c ∈ (gen n).data, c ∈ ("123456789" : String).data)
    (hnd : subjects.Nodup)
    (hrun : getSubjectMap gen subjects siteMap fuel = some m) :
    (∀ s ∈ subjects, ∃ sv suf, lookupS siteMap (s.take 2) = some sv ∧
      suf.length = 5 ∧ (∀ c ∈ suf.data, c ∈ ("123456789" : String).data) ∧
      lookupS m s = some (sv ++ suf)) ∧
    ∀ s t, s ∈ subjects → t ∈ subjects → s ≠ t → lookupS m s ≠ lookupS m t := by
  obtain ⟨hk, hvnd, hent⟩ :=
    getSubjectMapAux_inv gen siteMap subjects [] 0 fuel m hrun hnd
      (by simp [keysOf]) (by simp [valsOf])
  have hkeys : keysOf m = subjects := by simpa [keysOf] using hk
  have hvnd' : (m.map (fun p => p.2)).Nodup := hvnd
  constructor
  · intro s hs
    obtain ⟨v, hv⟩ := lookupS_isSome_of_mem_keys (m := m) (k := s) (hkeys ▸ hs)
    have hmem := mem_of_lookupS_eq_some hv
    rcases hent (s, v) hmem with hnilm | ⟨_, sv, j, hsv, hvj⟩
    · simp at hnilm
    · obtain ⟨hlen, hchars⟩ := hgen j
      have hvj' : v = sv ++ gen j := hvj
      exact ⟨sv, gen j, hsv, hlen, hchars, by rw [← hvj']; exact hv⟩
  · intro s t hs ht hst
    obtain ⟨v, hv⟩ := lookupS_isSome_of_mem_keys (m := m) (k := s) (hkeys ▸ hs)
    obtain ⟨w, hw⟩ := lookupS_isSome_of_mem_keys (m := m) (k := t) (hkeys ▸ ht)
    rw [hv, hw]
    intro hvw
    have hveq : v = w := Option.some.inj hvw
    have hms := mem_of_lookupS_eq_some hv
    have hmt := mem_of_lookupS_eq_some hw
    have hne : (s, v) ≠ (t, w) := fun he => hst (congrArg Prod.fst he)
    exact map_nodup_entry_ne (fun p => p.2) m hvnd' (s, v) hms (t, w) hmt hne hveq

/-- C2 witness: a concrete two-site run of `get_site_map`. -/
theorem getSiteMap_valid_and_injective_witness :
    lookupS [("PR", "AB"), ("ME", "CD")] "PR"
      ≠ lookupS [("PR", "AB"), ("ME", "CD")] "ME" := by
  have hgen : ∀ n, ((fun k => if k % 2 = 0 then "AB" else "CD") n).length = 2 ∧
      ∀ c ∈ ((fun k => if k % 2 = 0 then "AB" else "CD") n).data,
        c ∈ ("ABCDEFGHIJKLMNOPQRSTUVWXYZ" : String).data := by
    intro n
    by_cases h : n % 2 = 0 <;> simp only [h] <;> simp <;> decide
  exact (getSiteMap_valid_and_injective (fun k => if k % 2 = 0 then "AB" else "CD")
    ["PR", "ME"] [("PR", "AB"), ("ME", "CD")] 3 hgen (by decide) (by decide)).2
    "PR" "ME" (by decide) (by decide) (by decide)

/-- C1 witness: a concrete two-subject run of `get_subject_map`. -/
theorem getSubjectMap_valid_and_injective_witness :
    lookupS [("PR00001", "AB11111"), ("PR00002", "AB22222")] "PR00001"
      ≠ lookupS [("PR00001", "AB11111"), ("PR00002", "AB22222")] "PR00002" := by
  have hgen : ∀ n, ((fun k => if k % 2 = 0 then "11111" else "22222") n).length = 5 ∧
      ∀ c ∈ ((fun k => if k % 2 = 0 then "11111" else "22222") n).data,
        c ∈ ("123456789" : String).data := by
    intro n
    by_cases h : n % 2 = 0 <;> simp only [h] <;> simp <;> decide
  exact (getSubjectMap_valid_and_injective
    (fun k => if k % 2 = 0 then "11111" else "22222")
    ["PR00001", "PR00002"] [("PR", "AB")]
    [("PR00001", "AB11111"), ("PR00002", "AB22222")] 3 hgen (by decide)
    (by decide)).2 "PR00001" "PR00002" (by decide) (by decide) (by decide)

/-! ### The full subject map (C3) -/

theorem foldl_dinsert_append {α : Type} :
    ∀ (entries m : List (String × α)),
      (∀ p ∈ entries, p.1 ∉ keysOf m) → (keysOf entries).Nodup →
      entries.foldl (fun mm p => dinsert mm p.1 p.2) m = m ++ entries := by
  intro entries
  induction entries with
  | nil => intro m _ _; simp
  | cons e t ih =>
    intro m hdisj hnd
    obtain ⟨e1, e2⟩ := e
    simp only [List.foldl_cons]
    have he : e1 ∉ keysOf m := hdisj (e1, e2) (List.mem_cons_self _ t)
    rw [dinsert_eq_append he]
    rw [keysOf_cons] at hnd
    have hnd' := List.nodup_cons.mp hnd
    have hdisj' : ∀ p ∈ t, p.1 ∉ keysOf (m ++ [(e1, e2)]) := by
      intro p hp
      rw [keysOf_append]
      simp only [List.mem_append]
      rintro (hm | hh)
      · exact hdisj p (List.mem_cons_of_mem _ hp) hm
      · have hpe : p.1 = e1 := by simpa [keysOf] using hh
        exact hnd'.1 (hpe ▸ List.mem_map_of_mem (fun q => q.1) hp)
    rw [ih (m ++ [(e1, e2)]) hdisj' hnd'.2]
    simp

/-- C3 counterexample: on a concrete run of the stage-2 pipeline the distinct
keys `"Prescient"` and `"PRESCIENT"` both map to the value `"Prescient"`, so
the values of the final subject map are not pairwise distinct. -/
theorem generateSubjectMapCore_shared_value_counterexample :
    (generateSubjectMapCore (fun _ => "11111") ["PR00001"]
        [("PR", "AB"), ("combined", "combined")] 3).map
      (fun M => (lookupS M "Prescient", lookupS M "PRESCIENT"))
      = some (some "Prescient", some "Prescient")
    ∧ ("Prescient" : String) ≠ "PRESCIENT" := by
  constructor
  · decide
  · decide

/-- C3 amended: in the final subject map the values are pairwise distinct
except for the case-variant organizational passthroughs: two distinct keys can
share a value only if they are the pair Prescient/PRESCIENT (shared value
"Prescient") or the pair ProNET/PRONET (shared value "ProNET"). -/
theorem generateSubjectMapCore_values_distinct_except_literals
    (gen : Nat → String) (subjects : List String) (siteMap M : SMap) (fuel : Nat)
    (hgen : ∀ n, (gen n).length = 5)
    (hsubj7 : ∀ s ∈ subjects, s.length = 7) (hnd : subjects.Nodup)
    (hskeys : ∀ p ∈ siteMap, p.1.length = 2 ∨ p.1.length = 8)
    (hsvals : ∀ p ∈ siteMap, p.2.length = 2 ∨ p.2.length = 8)
    (hsknd : (keysOf siteMap).Nodup) (hsvnd : (valsOf siteMap).Nodup)
    (hrun : generateSubjectMapCore gen subjects siteMap fuel = some M) :
    ∀ k1 k2 v, k1 ≠ k2 → lookupS M k1 = some v → lookupS M k2 = some v →
      (k1 = "Prescient" ∧ k2 = "PRESCIENT") ∨ (k1 = "PRESCIENT" ∧ k2 = "Prescient")
      ∨ (k1 = "ProNET" ∧ k2 = "PRONET") ∨ (k1 = "PRONET" ∧ k2 = "ProNET") := by
  cases hsm : getSubjectMap gen subjects siteMap fuel with
  | none =>
    rw [generateSubjectMapCore, hsm] at hrun
    exact Option.noConfusion hrun
  | some sm =>
    rw [generateSubjectMapCore, hsm] at hrun
    replace hrun : addSitesToSubjectMap
        (literalEntries.foldl (fun m p => dinsert m p.1 p.2) sm) siteMap = M :=
      Option.some.inj hrun
    obtain ⟨hk, hvnd, hent⟩ :=
      getSubjectMapAux_inv gen siteMap subjects [] 0 fuel sm hsm hnd
        (by simp [keysOf]) (by simp [valsOf])
    have hkeys : keysOf sm = subjects := by simpa [keysOf] using hk
    have hvnd' : (sm.map (fun p => p.2)).Nodup := hvnd
    -- length facts
    have hsmk7 : ∀ p ∈ sm, p.1.length = 7 := by
      intro p hp
      exact hsubj7 p.1 (hkeys ▸ List.mem_map_of_mem (fun q => q.1) hp)
    have hsmv : ∀ p ∈ sm, p.2.length = 7 ∨ p.2.length = 13 := by
      intro p hp
      rcases hent p hp with hnil | ⟨_, sv, j, hsv, hvj⟩
      · simp at hnil
      · have hmemsite := mem_of_lookupS_eq_some hsv
        have hsvlen := hsvals _ hmemsite
        have : p.2.length = sv.length + 5 := by
          rw [hvj, String.length_append, hgen j]
        rcases hsvlen with h2 | h8
        · left; rw [this, h2]
        · right; rw [this, h8]
    have hlitk : ∀ p ∈ literalEntries, p.1.length = 6 ∨ p.1.length = 9 := by decide
    have hlitv : ∀ p ∈ literalEntries, p.2.length = 6 ∨ p.2.length = 9 := by decide
    have hlitknd : (keysOf literalEntries).Nodup := by decide
    -- the final map is a plain concatenation
    have hstep1 : literalEntries.foldl (fun m p => dinsert m p.1 p.2) sm
        = sm ++ literalEntries := by
      apply foldl_dinsert_append
      · intro p hp hkm
        obtain ⟨q, hq, hq1⟩ := List.mem_map.mp hkm
        have h7 := hsmk7 q hq
        rcases hlitk p hp with h6 | h9
        · rw [hq1] at h7; omega
        · rw [hq1] at h7; omega
      · exact hlitknd
    have hstep2 : addSitesToSubjectMap (sm ++ literalEntries) siteMap
        = (sm ++ literalEntries) ++ siteMap := by
      apply foldl_dinsert_append
      · intro p hp hkm
        rw [keysOf_append] at hkm
        rcases List.mem_append.mp hkm with hm | hl
        · obtain ⟨q, hq, hq1⟩ := List.mem_map.mp hm
          have h7 := hsmk7 q hq
          rcases hskeys p hp with h2 | h8 <;> rw [hq1] at h7 <;> omega
        · obtain ⟨q, hq, hq1⟩ := List.mem_map.mp hl
          have h69 := hlitk q hq
          rcases hskeys p hp with h2 | h8 <;> rw [hq1] at h69 <;> omega
      · exact hsknd
    have hM : M = sm ++ (literalEntries ++ siteMap) := by
      rw [← hrun, hstep1, hstep2, List.append_assoc]
    have hsvnd' : (siteMap.map (fun p => p.2)).Nodup := hsvnd
    -- main case analysis
    intro k1 k2 v hk12 h1 h2
    have hm1 : (k1, v) ∈ M := mem_of_lookupS_eq_some h1
    have hm2 : (k2, v) ∈ M := mem_of_lookupS_eq_some h2
    rw [hM] at hm1 hm2
    have hvlen_sm : ∀ k, (k, v) ∈ sm → v.length = 7 ∨ v.length = 13 := by
      intro k hk; exact hsmv (k, v) hk
    have hvlen_lit : ∀ k, (k, v) ∈ literalEntries → v.length = 6 ∨ v.length = 9 := by
      intro k hk; exact hlitv (k, v) hk
    have hvlen_site : ∀ k, (k, v) ∈ siteMap → v.length = 2 ∨ v.length = 8 := by
      intro k hk; exact hsvals (k, v) hk
    rcases List.mem_append.mp hm1 with hm1s | hm1r <;>
      rcases List.mem_append.mp hm2 with hm2s | hm2r
    · -- both generated
      exact absurd rfl
        (map_nodup_entry_ne (fun p => p.2) sm hvnd' (k1, v) hm1s (k2, v) hm2s
          (fun he => hk12 (congrArg Prod.fst he)))
    · -- generated vs literal-or-site
      exfalso
      have ha := hvlen_sm k1 hm1s
      rcases List.mem_append.mp hm2r with hm2l | hm2t
      · have hb := hvlen_lit k2 hm2l; omega
      · have hb := hvlen_site k2 hm2t; omega
    · -- literal-or-site vs generated
      exfalso
      have ha := hvlen_sm k2 hm2s
      rcases List.mem_append.mp hm1r with hm1l | hm1t
      · have hb := hvlen_lit k1 hm1l; omega
      · have hb := hvlen_site k1 hm1t; omega
    · rcases List.mem_append.mp hm1r with hm1l | hm1t <;>
        rcases List.mem_append.mp hm2r with hm2l | hm2t
      · -- both literal: enumerate
        simp only [literalEntries, List.mem_cons, List.not_mem_nil, or_false,
          Prod.mk.injEq] at hm1l hm2l
        rcases hm1l with ⟨rfl, rfl⟩ | ⟨rfl, rfl⟩ | ⟨rfl, rfl⟩ | ⟨rfl, rfl⟩ | ⟨rfl, rfl⟩ <;>
          rcases hm2l with ⟨rfl, hv2⟩ | ⟨rfl, hv2⟩ | ⟨rfl, hv2⟩ | ⟨rfl, hv2⟩ | ⟨rfl, hv2⟩ <;>
          first
            | exact absurd rfl hk12
            | exact absurd hv2 (by decide)
            | decide
      · -- literal vs site
        exfalso
        have ha := hvlen_lit k1 hm1l
        have hb := hvlen_site k2 hm2t
        omega
      · -- site vs literal
        exfalso
        have ha := hvlen_site k1 hm1t
        have hb := hvlen_lit k2 hm2l
        omega
      · -- both site
        exact absurd rfl
          (map_nodup_entry_ne (fun p => p.2) siteMap hsvnd' (k1, v) hm1t (k2, v) hm2t
            (fun he => hk12 (congrArg Prod.fst he)))

/-- C3 amended witness: the concrete run of the counterexample instantiates the
amended statement at the colliding pair. -/
theorem generateSubjectMapCore_values_distinct_except_literals_witness :
    ("Prescient" = "Prescient" ∧ "PRESCIENT" = "PRESCIENT")
    ∨ ("Prescient" = "PRESCIENT" ∧ "PRESCIENT" = "Prescient")
    ∨ ("Prescient" = "ProNET" ∧ "PRESCIENT" = "PRONET")
    ∨ ("Prescient" = "PRONET" ∧ "PRESCIENT" = "ProNET") := by
  have h := generateSubjectMapCore_values_distinct_except_literals
    (fun _ => "11111") ["PR00001"] [("PR", "AB"), ("combined", "combined")]
    [("PR00001", "AB11111"), ("AMPSCZ", "AMPSCZ"), ("Prescient", "Prescient"),
     ("ProNET", "ProNET"), ("PRESCIENT", "Prescient"), ("PRONET", "ProNET"),
     ("PR", "AB"), ("combined", "combined")] 3
    (fun n => rfl) (by decide) (by decide) (by decide) (by decide) (by decide)
    (by decide) (by decide) "Prescient" "PRESCIENT" "Prescient" (by decide)
    (by decide) (by decide)
  exact h

/-! ### Date-offset consolidation (C7) -/

theorem lastSome?_foldl {β γ : Type} (f : β → Option γ) :
    ∀ (l : List β) (acc : Option γ),
      l.foldl (fun a b => match f b with | some d => some d | none => a) acc
        = match lastSome? f l with | some d => some d | none => acc := by
  intro l
  induction l with
  | nil => intro acc; rfl
  | cons b t ih =>
    intro acc
    rw [List.foldl_cons, ih]
    have hl : lastSome? f (b :: t)
        = match lastSome? f t with | some d => some d | none => f b := by
      rw [lastSome?, List.foldl_cons, ih]
      cases f b <;> rfl
    rw [hl]
    cases lastSome? f t <;> cases hfb : f b <;> rfl

theorem lastSome?_cons {β γ : Type} (f : β → Option γ) (b : β) (t : List β) :
    lastSome? f (b :: t)
      = match lastSome? f t with | some d => some d | none => f b := by
  rw [lastSome?, List.foldl_cons, lastSome?_foldl]
  cases f b <;> rfl

theorem lastSome?_eq_none_of_not_mem {α : Type} {m : List (String × α)}
    {p : String} (h : p ∉ keysOf m) :
    lastSome? (fun q => if q.1 = p then some q.2 else none) m = none := by
  induction m with
  | nil => rfl
  | cons q t ih =>
    rw [keysOf_cons] at h
    simp only [List.mem_cons] at h
    push_neg at h
    rw [lastSome?_cons, ih h.2, if_neg (fun he => h.1 he.symm)]

theorem lastSome?_eq_lookupS_of_nodup {α : Type} {m : List (String × α)}
    (hnd : (keysOf m).Nodup) (p : String) :
    lastSome? (fun q => if q.1 = p then some q.2 else none) m = lookupS m p := by
  induction m with
  | nil => rfl
  | cons q t ih =>
    rw [keysOf_cons] at hnd
    have hnd' := List.nodup_cons.mp hnd
    rw [lastSome?_cons, ih hnd'.2, lookupS]
    by_cases hqp : q.1 = p
    · have hpt : p ∉ keysOf t := hqp ▸ hnd'.1
      rw [lookupS_eq_none_of_not_mem hpt, if_pos hqp]
    · simp only [if_neg hqp]
      cases lookupS t p <;> rfl

theorem dictUpdate_lookup {α : Type} :
    ∀ (entries m : List (String × α)) (p : String),
      lookupS (dictUpdate m entries) p
        = match lastSome? (fun q => if q.1 = p then some q.2 else none) entries with
          | some v => some v
          | none => lookupS m p := by
  intro entries
  induction entries with
  | nil => intro m p; rfl
  | cons q t ih =>
    intro m p
    rw [dictUpdate, List.foldl_cons]
    have : (t.foldl (fun acc r => dinsert acc r.1 r.2) (dinsert m q.1 q.2))
        = dictUpdate (dinsert m q.1 q.2) t := rfl
    rw [this, ih, lastSome?_cons]
    cases lastSome? (fun r => if r.1 = p then some r.2 else none) t with
    | some d => rfl
    | none =>
      rw [lookupS_dinsert]
      by_cases hqp : q.1 = p
      · rw [if_pos hqp, if_pos hqp.symm]
      · rw [if_neg hqp, if_neg (fun he => hqp he.symm)]

theorem getSubjectDateOffsetMap_keys_nodup :
    ∀ (rows acc : List DateRow), (keysOf acc).Nodup →
      (keysOf (rows.foldl
        (fun m p => if (lookupS m p.1).isSome then m else m ++ [p]) acc)).Nodup := by
  intro rows
  induction rows with
  | nil => intro acc h; exact h
  | cons r t ih =>
    intro acc h
    rw [List.foldl_cons]
    by_cases hr : (lookupS acc r.1).isSome
    · rw [if_pos hr]; exact ih acc h
    · rw [if_neg hr]
      apply ih
      rw [keysOf_append]
      simp only [List.nodup_append]
      refine ⟨h, by simp [keysOf], ?_⟩
      intro x hx
      simp only [keysOf, List.map_cons, List.map_nil, List.mem_singleton]
      intro hxr
      subst hxr
      obtain ⟨v, hv⟩ := lookupS_isSome_of_mem_keys hx
      rw [hv] at hr
      exact hr (by simp)

theorem getSubjectDateOffsetMap_lookup :
    ∀ (rows acc : List DateRow) (p : String),
      lookupS (rows.foldl
          (fun m q => if (lookupS m q.1).isSome then m else m ++ [q]) acc) p
        = match lookupS acc p with
          | some v => some v
          | none => lookupS rows p := by
  intro rows
  induction rows with
  | nil =>
    intro acc p
    show lookupS acc p = _
    cases lookupS acc p <;> rfl
  | cons r t ih =>
    intro acc p
    rw [List.foldl_cons]
    by_cases hr : (lookupS acc r.1).isSome
    · rw [if_pos hr, ih]
      cases hacc : lookupS acc p with
      | some v => rfl
      | none =>
        have hrp : ¬ r.1 = p := by
          intro he
          rw [he, hacc] at hr
          simp at hr
        simp [lookupS, hrp]
    · rw [if_neg hr, ih, lookupS_append]
      cases hacc : lookupS acc p with
      | some v => rfl
      | none =>
        by_cases hrp : r.1 = p
        · simp [lookupS, hrp]
        · simp [lookupS, hrp]

theorem lastSome?_cons_some {β γ : Type} (f : β → Option γ) (b : β) {t : List β}
    {d : γ} (h : lastSome? f t = some d) : lastSome? f (b :: t) = some d := by
  rw [lastSome?_cons, h]

theorem lastSome?_cons_none {β γ : Type} (f : β → Option γ) (b : β) {t : List β}
    (h : lastSome? f t = none) : lastSome? f (b :: t) = f b := by
  rw [lastSome?_cons, h]

theorem getSubjectDateOffsetMap_keys_nodup' (rows : List DateRow) :
    (keysOf (getSubjectDateOffsetMap rows)).Nodup := by
  rw [getSubjectDateOffsetMap]
  exact getSubjectDateOffsetMap_keys_nodup rows [] (by simp [keysOf])

theorem getSubjectDateOffsetMap_lookup' (rows : List DateRow) (p : String) :
    lookupS (getSubjectDateOffsetMap rows) p = lookupS rows p := by
  rw [getSubjectDateOffsetMap, getSubjectDateOffsetMap_lookup rows [] p]
  exact rfl

theorem consolidate_merge_lookup :
    ∀ (sources : List (List DateRow)) (acc : List (String × Int)) (p : String),
      lookupS (sources.foldl
          (fun a src => dictUpdate a (getSubjectDateOffsetMap src)) acc) p
        = match lastDeclaring sources p with
          | some d => some d
          | none => lookupS acc p := by
  intro sources
  induction sources with
  | nil => intro acc p; rfl
  | cons src t ih =>
    intro acc p
    rw [List.foldl_cons, ih]
    have hunfold : lookupS (dictUpdate acc (getSubjectDateOffsetMap src)) p
        = match lookupS src p with
          | some v => some v
          | none => lookupS acc p := by
      rw [dictUpdate_lookup,
        lastSome?_eq_lookupS_of_nodup (getSubjectDateOffsetMap_keys_nodup' src) p,
        getSubjectDateOffsetMap_lookup']
      cases lookupS src p <;> rfl
    cases hld : lastDeclaring t p with
    | some d =>
      have hld' : lastSome? (fun s => firstDays s p) t = some d := hld
      have h2 : lastDeclaring (src :: t) p = some d :=
        lastSome?_cons_some _ src hld'
      rw [h2]
    | none =>
      have hld' : lastSome? (fun s => firstDays s p) t = none := hld
      have h2 : lastDeclaring (src :: t) p = firstDays src p :=
        lastSome?_cons_none _ src hld'
      rw [h2, hunfold, firstDays]

theorem addonEntries_lookup (choice : Nat → Int) :
    ∀ (addons : List String) (n : Nat) (p : String), p ∈ addons →
      ∃ j, j < addons.length ∧ addons[j]? = some p ∧
        lookupS ((addons.enumFrom n).map (fun q => (q.2, choice q.1))) p
          = some (choice (n + j)) := by
  intro addons
  induction addons with
  | nil => intro n p h; simp at h
  | cons a t ih =>
    intro n p h
    by_cases hap : a = p
    · subst hap
      refine ⟨0, by simp, by simp, ?_⟩
      rw [List.enumFrom, List.map_cons, lookupS, if_pos rfl]
      simp
    · have hpt : p ∈ t := by
        rcases List.mem_cons.mp h with h' | h'
        · exact absurd h'.symm hap
        · exact h'
      obtain ⟨j, hlt, hget, hlk⟩ := ih (n + 1) p hpt
      refine ⟨j + 1, by simpa using hlt, by simpa using hget, ?_⟩
      rw [List.enumFrom, List.map_cons, lookupS, if_neg hap,
        show n + (j + 1) = n + 1 + j from by omega, hlk]

theorem addonEntries_keys (choice : Nat → Int) :
    ∀ (addons : List String) (n : Nat),
      keysOf ((addons.enumFrom n).map (fun q => (q.2, choice q.1))) = addons := by
  intro addons
  induction addons with
  | nil => intro n; rfl
  | cons a t ih =>
    intro n
    rw [List.enumFrom, List.map_cons, keysOf_cons, ih]

/-- C7: the consolidated date-offset map gives every non-addon participant the
`days` value of the first matching row of the last source (in the given order)
that declares them, and gives every addon participant the drawn offset from
the fixed candidate set, unconditionally overwriting any value the sources
declared for them. -/
theorem consolidateDates_last_wins_and_addons (sources : List (List DateRow))
    (addons : List String) (choice : Nat → Int)
    (hch : ∀ n, choice n ∈ possibleOffsets) (hnd : addons.Nodup) :
    (∀ p, p ∉ addons →
      lookupS (consolidateDates sources addons choice) p = lastDeclaring sources p)
    ∧ ∀ p ∈ addons, ∃ j, j < addons.length ∧ addons[j]? = some p ∧
        lookupS (consolidateDates sources addons choice) p = some (choice j) ∧
        choice j ∈ possibleOffsets := by
  have hkeysAdd : keysOf (getAddonsSubjectsDates addons choice) = addons := by
    rw [getAddonsSubjectsDates]
    exact addonEntries_keys choice addons 0
  constructor
  · intro p hp
    have hpk : p ∉ keysOf (getAddonsSubjectsDates addons choice) := by
      rw [hkeysAdd]; exact hp
    show lookupS (dictUpdate
        (sources.foldl (fun a src => dictUpdate a (getSubjectDateOffsetMap src)) [])
        (getAddonsSubjectsDates addons choice)) p = lastDeclaring sources p
    rw [dictUpdate_lookup, lastSome?_eq_none_of_not_mem hpk]
    show lookupS
        (sources.foldl (fun a src => dictUpdate a (getSubjectDateOffsetMap src)) []) p
      = lastDeclaring sources p
    rw [consolidate_merge_lookup sources [] p]
    cases lastDeclaring sources p <;> rfl
  · intro p hp
    have hndk : (keysOf (getAddonsSubjectsDates addons choice)).Nodup := by
      rw [hkeysAdd]; exact hnd
    obtain ⟨j, hlt, hget, hlk⟩ := addonEntries_lookup choice addons 0 p hp
    refine ⟨j, hlt, hget, ?_, hch j⟩
    show lookupS (dictUpdate
        (sources.foldl (fun a src => dictUpdate a (getSubjectDateOffsetMap src)) [])
        (getAddonsSubjectsDates addons choice)) p = some (choice j)
    rw [dictUpdate_lookup, lastSome?_eq_lookupS_of_nodup hndk p]
    have hlk' : lookupS (getAddonsSubjectsDates addons choice) p = some (choice j) := by
      rw [getAddonsSubjectsDates]
      simpa using hlk
    rw [hlk']

/-- C7 witness: a concrete run where a later source overrides an earlier one
and the addon draw overrides both. -/
theorem consolidateDates_last_wins_and_addons_witness :
    lookupS (consolidateDates [[("PR00001", 3), ("ZZ00001", 50)],
        [("PR00001", 100), ("PR00001", 5)]] ["ZZ00001"] (fun _ => 7)) "PR00001"
      = lastDeclaring [[("PR00001", 3), ("ZZ00001", 50)],
        [("PR00001", 100), ("PR00001", 5)]] "PR00001"
    ∧ lastDeclaring [[("PR00001", 3), ("ZZ00001", 50)],
        [("PR00001", 100), ("PR00001", 5)]] "PR00001" = some 100
    ∧ lookupS (consolidateDates [[("PR00001", 3), ("ZZ00001", 50)],
        [("PR00001", 100), ("PR00001", 5)]] ["ZZ00001"] (fun _ => 7)) "ZZ00001"
      = some 7 := by
  have h := consolidateDates_last_wins_and_addons
    [[("PR00001", 3), ("ZZ00001", 50)], [("PR00001", 100), ("PR00001", 5)]]
    ["ZZ00001"] (fun _ => 7)
    (fun n => by show (7 : Int) ∈ possibleOffsets; decide) (by decide)
  refine ⟨h.1 "PR00001" (by decide), by decide, ?_⟩
  obtain ⟨j, hlt, hget, hlk, _⟩ := h.2 "ZZ00001" (by decide)
  have hlt' : j < 1 := by simpa using hlt
  have hj : j = 0 := by omega
  subst hj
  exact hlk

/-! ### Subject resolution for date shifting (C4) -/

/-- C4 counterexample: with the row's `subject_id` column naming the
participant with offset 1 and the filename-derived id (7 characters) naming
the participant with offset 7, `get_anonymized_date` shifts by 7: the
filename-derived id is preferred over the identity column, not the other way
around as the spec sentence states (which would give `"2023-01-02"`). -/
theorem getAnonymizedDate_column_not_preferred_counterexample :
    getAnonymizedDate [("subject_id", some "PR00001"), ("date", some "2023-01-01")]
      "date" [("PR00001", 1), ("XX99999", 7)] (some "XX99999") = some "2023-01-08"
    ∧ getAnonymizedDate [("subject_id", some "PR00001"), ("date", some "2023-01-01")]
      "date" [("PR00001", 1), ("XX99999", 7)] (some "XX99999") ≠ some "2023-01-02" := by
  constructor
  · decide
  · decide

/-- C4 amended: the filename-derived id, when exactly 7 characters, is
preferred and the row's `subject_id` column is ignored; otherwise the row's
`subject_id` column is used whatever its length; and only when the
filename-derived id is absent or not 7 characters AND the row has no
`subject_id` column is the date step skipped, the cell passing through
unchanged. -/
theorem getAnonymizedDate_resolution_order (row : Row) (col : String)
    (offsets : List (String × Int)) (sid : Option String) :
    (∀ s, sid = some s → s.length = 7 →
      getAnonymizedDate row col offsets sid
        = applyOffsetResolved (some s) row col offsets)
    ∧ ((sid = none ∨ ∃ s, sid = some s ∧ s.length ≠ 7) →
        (hasCol row "subject_id" = true →
          getAnonymizedDate row col offsets sid
            = applyOffsetResolved (getCell row "subject_id") row col offsets)
        ∧ (hasCol row "subject_id" = false →
          getAnonymizedDate row col offsets sid = getCell row col)) := by
  constructor
  · rintro s rfl h7
    rw [getAnonymizedDate, if_pos h7]
  · rintro (rfl | ⟨s, rfl, h7⟩)
    · constructor <;> intro hc <;> simp [getAnonymizedDate, hc]
    · constructor <;> intro hc <;> simp [getAnonymizedDate, hc, h7]

/-- C4 amended witness: the three resolution branches at concrete inputs. -/
theorem getAnonymizedDate_resolution_order_witness :
    getAnonymizedDate [("d", some "2023-01-01")] "d" [("AAAAAAA", 7)]
      (some "AAAAAAA")
      = applyOffsetResolved (some "AAAAAAA") [("d", some "2023-01-01")] "d"
        [("AAAAAAA", 7)]
    ∧ getAnonymizedDate [("subject_id", some "PR00001"), ("d", some "2023-01-01")]
        "d" [("PR00001", 7)] (some "XX")
      = applyOffsetResolved
          (getCell [("subject_id", some "PR00001"), ("d", some "2023-01-01")]
            "subject_id")
          [("subject_id", some "PR00001"), ("d", some "2023-01-01")] "d"
          [("PR00001", 7)]
    ∧ getAnonymizedDate [("d", some "2023-01-01")] "d" [("PR00001", 7)] (some "XX")
      = getCell [("d", some "2023-01-01")] "d" := by
  refine ⟨?_, ?_, ?_⟩
  · exact (getAnonymizedDate_resolution_order
      [("d", some "2023-01-01")] "d" [("AAAAAAA", 7)] (some "AAAAAAA")).1
      "AAAAAAA" rfl (by decide)
  · exact ((getAnonymizedDate_resolution_order
      [("subject_id", some "PR00001"), ("d", some "2023-01-01")] "d"
      [("PR00001", 7)] (some "XX")).2
      (Or.inr ⟨"XX", rfl, by decide⟩)).1 (by decide)
  · exact ((getAnonymizedDate_resolution_order
      [("d", some "2023-01-01")] "d" [("PR00001", 7)] (some "XX")).2
      (Or.inr ⟨"XX", rfl, by decide⟩)).2 (by decide)

/-! ### Date shifting (C5) -/

/-- C5: with offset 7 a bare date cell `"2023-01-01"` becomes `"2023-01-08"`
(no time reintroduced), a timestamp cell `"2023-01-01 13:45:00"` becomes
`"2023-01-08 13:45:00"` (the non-midnight time is preserved with full
timestamp formatting), and any cell that fails to parse as a date is left
unchanged. -/
theorem getAnonymizedDate_shift_examples :
    getAnonymizedDate [("subject_id", some "PR00001"), ("date", some "2023-01-01")]
      "date" [("PR00001", 7)] (some "PR00001") = some "2023-01-08"
    ∧ getAnonymizedDate
        [("subject_id", some "PR00001"), ("ts", some "2023-01-01 13:45:00")]
        "ts" [("PR00001", 7)] (some "PR00001") = some "2023-01-08 13:45:00"
    ∧ ∀ s : String, parseDateTime s = none →
        getAnonymizedDate [("subject_id", some "PR00001"), ("c", some s)] "c"
          [("PR00001", 7)] (some "PR00001") = some s := by
  refine ⟨by decide, by decide, ?_⟩
  intro s hs
  show shiftCell (some s) "c" 7 = some s
  rw [shiftCell, hs]

/-- C5 witness: the unparseable-cell clause at the concrete cell
`"not-a-date"`. -/
theorem getAnonymizedDate_shift_examples_witness :
    parseDateTime "not-a-date" = none
    ∧ getAnonymizedDate
        [("subject_id", some "PR00001"), ("c", some "not-a-date")] "c"
        [("PR00001", 7)] (some "PR00001") = some "not-a-date" :=
  ⟨by decide, getAnonymizedDate_shift_examples.2.2 "not-a-date" (by decide)⟩

/-! ### Filename rewriting (C6) -/

/-- C6 counterexample: `"study-metadata.csv"` does have a second
hyphen-delimited segment (`"metadata.csv"`), so it does not pass through under
the metadata exception: `generate_anoymized_file_name` raises
`ValueError("Invalid site: study")` for these maps and the file is skipped. -/
theorem generateAnoymizedFileName_metadata_counterexample :
    generateAnoymizedFileName "study-metadata.csv" [("PR00001", "AB12345")]
      [("PR", "AB")] = Except.error "Invalid site: study"
    ∧ generateAnoymizedFileName "study-metadata.csv" [("PR00001", "AB12345")]
        [("PR", "AB")] ≠ Except.ok "study-metadata.csv" := by
  constructor
  · rfl
  · intro h
    rw [show generateAnoymizedFileName "study-metadata.csv" [("PR00001", "AB12345")]
        [("PR", "AB")] = Except.error "Invalid site: study" from rfl] at h
    exact Except.noConfusion h

/-- C6 amended: with `site_map = {"PR": "AB"}` and
`subject_map = {"PR00001": "AB12345"}` the filename `"PR-PR00001-visit.csv"`
rewrites to `"AB-AB12345-visit.csv"`; the metadata pass-through applies only
to names with no hyphen at all, such as `"metadata.csv"`; and
`"study-metadata.csv"`, whose first segment `"study"` is not in the site map,
is rejected (skipped with a warning by the caller). -/
theorem generateAnoymizedFileName_examples :
    generateAnoymizedFileName "PR-PR00001-visit.csv" [("PR00001", "AB12345")]
      [("PR", "AB")] = Except.ok "AB-AB12345-visit.csv"
    ∧ generateAnoymizedFileName "metadata.csv" [("PR00001", "AB12345")]
        [("PR", "AB")] = Except.ok "metadata.csv"
    ∧ generateAnoymizedFileName "study-metadata.csv" [("PR00001", "AB12345")]
        [("PR", "AB")] = Except.error "Invalid site: study" := by
  exact ⟨rfl, rfl, rfl⟩

/-! ### Row-level refinement of `anonymize_df` (C8, C10) -/

theorem setCell_of_lookupS_none {r : Row} {c : String} (h : lookupS r c = none)
    (v : Cell) : setCell r c v = r := by
  induction r with
  | nil => rfl
  | cons p t ih =>
    rw [lookupS] at h
    by_cases hpc : p.1 = c
    · rw [if_pos hpc] at h
      exact Option.noConfusion h
    · rw [if_neg hpc] at h
      rw [setCell, if_neg hpc, ih h]

theorem lookupS_setCell_isSome {r : Row} {c : String}
    (h : (lookupS r c).isSome = true) (v : Cell) :
    lookupS (setCell r c v) c = some v := by
  induction r with
  | nil => simp [lookupS] at h
  | cons p t ih =>
    by_cases hpc : p.1 = c
    · simp [setCell, lookupS, hpc]
    · rw [lookupS, if_neg hpc] at h
      simp [setCell, lookupS, hpc, ih h]

theorem lookupS_setCell_ne {r : Row} {c c' : String} (h : ¬ c' = c) (v : Cell) :
    lookupS (setCell r c v) c' = lookupS r c' := by
  induction r with
  | nil => rfl
  | cons p t ih =>
    by_cases hpc : p.1 = c
    · subst hpc
      have hne : ¬ p.1 = c' := fun he => h (he.symm)
      simp [setCell, lookupS, hne, ih]
    · by_cases hpc' : p.1 = c'
      · simp [setCell, lookupS, hpc, hpc', h]
      · simp [setCell, lookupS, hpc, hpc', ih]

theorem getCell_setCell_none (r : Row) (c : String) :
    getCell (setCell r c none) c = none := by
  cases hl : lookupS r c with
  | none =>
    rw [setCell_of_lookupS_none hl, getCell, hl]
    rfl
  | some cell =>
    rw [getCell, lookupS_setCell_isSome (by rw [hl]; rfl)]
    rfl

theorem lookupS_of_getCell_some {r : Row} {c : String} {v : String}
    (h : getCell r c = some v) : lookupS r c = some (some v) := by
  rw [getCell] at h
  cases hl : lookupS r c with
  | none =>
    rw [hl] at h
    exact Option.noConfusion h
  | some cell =>
    rw [hl] at h
    simp only [Option.getD_some] at h
    rw [h]

theorem dateShiftStep_eq_map (offsets : List (String × Int)) (sid : Option String) :
    ∀ (cols : List String) (rows : List Row),
      dateShiftStep offsets sid cols rows
        = rows.map (dateShiftRow offsets sid cols) := by
  intro cols
  induction cols with
  | nil =>
    intro rows
    show rows = rows.map (fun r => r)
    rw [List.map_id']
  | cons c rest ih =>
    intro rows
    rw [dateShiftStep, ih, List.map_map]
    rfl

theorem filterMap_someId {α : Type} : ∀ l : List α, l.filterMap some = l := by
  intro l
  induction l with
  | nil => rfl
  | cons a t ih => rw [List.filterMap_cons]; simp [ih]

theorem subjectStep_one (sm : SMap) (c : String) :
    ∀ rows : List Row,
      ((rows.map (colMapRow sm c)).filter (fun r => (getCell r c).isSome))
        = rows.filterMap (subjectRowStep sm c) := by
  intro rows
  induction rows with
  | nil => rfl
  | cons r t ih =>
    rw [List.map_cons, List.filter_cons, List.filterMap_cons]
    cases hrc : getCell r c with
    | none =>
      have h1 : getCell (colMapRow sm c r) c = none := by
        rw [colMapRow, hrc]
        exact getCell_setCell_none r c
      have h2 : subjectRowStep sm c r = none := by
        rw [subjectRowStep, hrc]
      rw [h1, h2]
      simp [ih]
    | some v =>
      cases hsv : lookupS sm v with
      | none =>
        have h1 : getCell (colMapRow sm c r) c = none := by
          simp only [colMapRow, hrc, hsv]
          exact getCell_setCell_none r c
        have h2 : subjectRowStep sm c r = none := by
          simp only [subjectRowStep, hrc, hsv]
        rw [h1, h2]
        simp [ih]
      | some w =>
        have hl : lookupS r c = some (some v) := lookupS_of_getCell_some hrc
        have h3 : colMapRow sm c r = setCell r c (some w) := by
          simp only [colMapRow, hrc, hsv]
        have h1 : getCell (colMapRow sm c r) c = some w := by
          rw [h3, getCell, lookupS_setCell_isSome (by rw [hl]; rfl)]
          rfl
        have h2 : subjectRowStep sm c r = some (setCell r c (some w)) := by
          simp only [subjectRowStep, hrc, hsv]
        rw [h1, h2, h3]
        simp [ih]

theorem subjectStep_eq_filterMap (sm : SMap) :
    ∀ (scols : List String) (rows : List Row),
      subjectStep sm scols rows = rows.filterMap (subjectRow sm scols) := by
  intro scols
  induction scols with
  | nil =>
    intro rows
    show rows = rows.filterMap (subjectRow sm [])
    have hfn : subjectRow sm [] = some := rfl
    rw [hfn, filterMap_someId]
  | cons c rest ih =>
    intro rows
    rw [subjectStep, subjectStep_one, ih, List.filterMap_filterMap]
    rfl

theorem siteStep_eq_map (stm : SMap) (cols : List String) (rows : List Row) :
    siteStep stm cols rows = rows.map (siteRow stm cols) := by
  rw [siteStep]
  by_cases h : "site" ∈ cols
  · rw [if_pos h]
    have hfn : siteRow stm cols = colMapRow stm "site" := by
      funext r
      rw [siteRow, if_pos h]
    rw [hfn]
  · rw [if_neg h]
    have hfn : siteRow stm cols = fun r => r := by
      funext r
      rw [siteRow, if_neg h]
    rw [hfn, List.map_id']

/-- The column-at-a-time `anonymize_df` equals a row-at-a-time pipeline:
each row is date-shifted, then subject-substituted (dying if any subject value
is unmapped), then site-substituted. -/
theorem anonymizeDf_rows (df : Df) (sm stm : SMap) (offsets : List (String × Int))
    (sid : Option String) :
    (anonymizeDf df sm stm offsets sid).rows
      = df.rows.filterMap (anonymizeRowSpec df.cols sm stm offsets sid) := by
  show siteStep stm df.cols (subjectStep sm (df.cols.filter isSubjectCol)
      (dateShiftStep offsets sid df.cols df.rows)) = _
  rw [dateShiftStep_eq_map, subjectStep_eq_filterMap, siteStep_eq_map,
    List.filterMap_map, List.map_filterMap]
  rfl

theorem subjectRow_drop (sm : SMap) :
    ∀ (scols : List String) (r : Row) (c : String) (v : String),
      c ∈ scols → getCell r c = some v → lookupS sm v = none →
      subjectRow sm scols r = none := by
  intro scols
  induction scols with
  | nil => intro r c v hc; simp at hc
  | cons c' rest ih =>
    intro r c v hc hv hsm
    rw [subjectRow]
    by_cases hcc : c' = c
    · subst hcc
      simp only [subjectRowStep, hv, hsm, Option.none_bind]
    · cases hst : subjectRowStep sm c' r with
      | none => rfl
      | some r2 =>
        show subjectRow sm rest r2 = none
        rw [subjectRowStep] at hst
        cases hrc' : getCell r c' with
        | none =>
          simp only [hrc'] at hst
          exact Option.noConfusion hst
        | some v' =>
          simp only [hrc'] at hst
          cases hsv' : lookupS sm v' with
          | none =>
            simp only [hsv'] at hst
            exact Option.noConfusion hst
          | some w =>
            simp only [hsv'] at hst
            replace hst : setCell r c' (some w) = r2 := Option.some.inj hst
            have hget : getCell r2 c = some v := by
              rw [← hst, getCell, lookupS_setCell_ne (fun he => hcc he.symm)]
              exact hv
            exact ih r2 c v
              ((List.mem_cons.mp hc).resolve_left (fun he => hcc he.symm))
              hget hsm

/-- C8: rows whose value in a subject column is unmapped are dropped from the
output (the whole frame refines to a per-row pipeline in which such rows map
to `none`); a file whose filename facility or participant segment is unmapped
is skipped with no output produced; and a skipped file contributes nothing
while the walk continues over the remaining files. -/
theorem anonymize_drops_and_skips (df : Df) (sm stm : SMap)
    (offsets : List (String × Int)) (sid : Option String) (fname : String)
    (df2 : Df) (rest : List (String × Df)) :
    ((anonymizeDf df sm stm offsets sid).rows
      = df.rows.filterMap (anonymizeRowSpec df.cols sm stm offsets sid))
    ∧ (∀ r c v, c ∈ df.cols.filter isSubjectCol →
        getCell (dateShiftRow offsets sid df.cols r) c = some v →
        lookupS sm v = none →
        anonymizeRowSpec df.cols sm stm offsets sid r = none)
    ∧ (2 ≤ (pySplit fname '-').length →
        lookupS stm ((pySplit fname '-').headD "") = none →
        anonymizeCsv fname df2 sm stm offsets = none)
    ∧ (∀ sv, 2 ≤ (pySplit fname '-').length →
        lookupS stm ((pySplit fname '-').headD "") = some sv →
        lookupS sm ((pySplit fname '-').getD 1 "") = none →
        anonymizeCsv fname df2 sm stm offsets = none)
    ∧ (anonymizeCsv fname df2 sm stm offsets = none →
        anonymizeData ((fname, df2) :: rest) sm stm offsets
          = anonymizeData rest sm stm offsets) := by
  refine ⟨anonymizeDf_rows df sm stm offsets sid, ?_, ?_, ?_, ?_⟩
  · intro r c v hc hv hsm
    rw [anonymizeRowSpec, subjectRow_drop sm _ _ c v hc hv hsm]
    rfl
  · intro hlen hsite
    have hgen : generateAnoymizedFileName fname sm stm
        = Except.error ("Invalid site: " ++ (pySplit fname '-').headD "") := by
      simp only [generateAnoymizedFileName]
      rw [if_neg (by omega), hsite]
    simp only [anonymizeCsv]
    rw [hgen]
  · intro sv hlen hsite hsubj
    have hgen : generateAnoymizedFileName fname sm stm
        = Except.error ("Invalid subject: " ++ (pySplit fname '-').getD 1 "") := by
      simp only [generateAnoymizedFileName]
      rw [if_neg (by omega), hsite, hsubj]
    simp only [anonymizeCsv]
    rw [hgen]
  · intro hnone
    show List.filterMap _ ((fname, df2) :: rest) = _
    rw [List.filterMap_cons]
    have hcell : (if strEndsWith (fname, df2).1 ".csv" = true
        then anonymizeCsv (fname, df2).1 (fname, df2).2 sm stm offsets
        else none) = none := by
      by_cases hcsv : strEndsWith fname ".csv" = true
      · rw [if_pos hcsv]
        exact hnone
      · rw [if_neg hcsv]
    rw [hcell]
    rfl

/-- C8 witness: a concrete frame in which the row naming an unmapped
participant is dropped, and a concrete file with an unmapped facility segment
that is skipped while the walk continues. -/
theorem anonymize_drops_and_skips_witness :
    (anonymizeDf
        ⟨["subject_id", "date"],
         [[("subject_id", some "PR00001"), ("date", some "2023-01-01")],
          [("subject_id", some "XX00002"), ("date", some "2023-01-01")]]⟩
        [("PR00001", "AB12345")] [] [("PR00001", 7)] none).rows
      = (⟨["subject_id", "date"],
         [[("subject_id", some "PR00001"), ("date", some "2023-01-01")],
          [("subject_id", some "XX00002"), ("date", some "2023-01-01")]]⟩ : Df).rows.filterMap
          (anonymizeRowSpec ["subject_id", "date"] [("PR00001", "AB12345")] []
            [("PR00001", 7)] none)
    ∧ anonymizeRowSpec ["subject_id", "date"] [("PR00001", "AB12345")] []
        [("PR00001", 7)] none
        [("subject_id", some "XX00002"), ("date", some "2023-01-01")] = none
    ∧ anonymizeCsv "QQ-QQ1-x.csv"
        ⟨["subject_id", "date"],
         [[("subject_id", some "PR00001"), ("date", some "2023-01-01")]]⟩
        [("PR00001", "AB12345")] [] [("PR00001", 7)] = none
    ∧ anonymizeData [("QQ-QQ1-x.csv",
        ⟨["subject_id", "date"],
         [[("subject_id", some "PR00001"), ("date", some "2023-01-01")]]⟩)]
        [("PR00001", "AB12345")] [] [("PR00001", 7)]
      = anonymizeData [] [("PR00001", "AB12345")] [] [("PR00001", 7)] := by
  have h := anonymize_drops_and_skips
    ⟨["subject_id", "date"],
     [[("subject_id", some "PR00001"), ("date", some "2023-01-01")],
      [("subject_id", some "XX00002"), ("date", some "2023-01-01")]]⟩
    [("PR00001", "AB12345")] [] [("PR00001", 7)] none "QQ-QQ1-x.csv"
    ⟨["subject_id", "date"],
     [[("subject_id", some "PR00001"), ("date", some "2023-01-01")]]⟩ []
  have hskip := h.2.2.1 (by decide) (by decide)
  exact ⟨h.1,
    h.2.1 [("subject_id", some "XX00002"), ("date", some "2023-01-01")]
      "subject_id" "XX00002" (by decide) (by decide) (by decide),
    hskip, h.2.2.2.2 hskip⟩

/-- C10: during anonymization of a column literally named `site`, a cell value
absent from the site map is replaced by NaN while its row is retained in the
output — the row is not dropped, and the original value is not passed
through. -/
theorem anonymizeDf_site_nan_row_retained (df : Df) (sm stm : SMap)
    (offsets : List (String × Int)) (sid : Option String) (r r2 : Row) (s : String)
    (hr : r ∈ df.rows) (hsite : "site" ∈ df.cols)
    (h2 : subjectRow sm (df.cols.filter isSubjectCol)
        (dateShiftRow offsets sid df.cols r) = some r2)
    (hs : getCell r2 "site" = some s) (hu : lookupS stm s = none) :
    siteRow stm df.cols r2 ∈ (anonymizeDf df sm stm offsets sid).rows
    ∧ getCell (siteRow stm df.cols r2) "site" = none := by
  constructor
  · rw [anonymizeDf_rows]
    refine List.mem_filterMap.mpr ⟨r, hr, ?_⟩
    rw [anonymizeRowSpec, h2]
    rfl
  · rw [siteRow, if_pos hsite]
    simp only [colMapRow, hs, hu]
    exact getCell_setCell_none r2 "site"

/-- C10 witness: a concrete single-row frame with an unmapped `site` value. -/
theorem anonymizeDf_site_nan_row_retained_witness :
    siteRow [] ["site"] [("site", some "QQ")]
      ∈ (anonymizeDf ⟨["site"], [[("site", some "QQ")]]⟩ [] [] [] none).rows
    ∧ getCell (siteRow [] ["site"] [("site", some "QQ")]) "site" = none := by
  exact anonymizeDf_site_nan_row_retained
    ⟨["site"], [[("site", some "QQ")]]⟩ [] [] [] none
    [("site", some "QQ")] [("site", some "QQ")] "QQ"
    (by decide) (by decide) (by decide) (by decide) (by decide)

/-! ### Missing declared sources (C9) -/

theorem readAll_error {α : Type} :
    ∀ (sources : List (Source α)), (∃ s ∈ sources, s.pathExists = false) →
      ∃ e, readAll sources = Except.error e := by
  intro sources
  induction sources with
  | nil =>
    rintro ⟨s, hs, _⟩
    simp at hs
  | cons s rest ih =>
    rintro ⟨t, ht, htf⟩
    rw [readAll]
    by_cases hp : s.pathExists = true
    · rw [if_pos hp]
      rcases List.mem_cons.mp ht with rfl | htr
      · rw [htf] at hp
        exact Bool.noConfusion hp
      · obtain ⟨e, he⟩ := ih ⟨t, htr, htf⟩
        rw [he]
        exact ⟨e, rfl⟩
    · rw [if_neg hp]
      exact ⟨"Source does not exist", rfl⟩

/-- C9: in each map-building stage, a declared source path that does not exist
makes the stage raise a fatal error (the source loop checks existence before
any reading, and the output map is only produced — and only written — after
all sources are read), so no output map value is produced for that stage. -/
theorem stage_missing_source_fatal (gen : Nat → String) (skip : Bool) (fuel : Nat)
    (src1 src2 : List (Source (List String))) (src3 : List (Source (List DateRow)))
    (addons addons3 : List String) (siteMap : SMap) (choice : Nat → Int) :
    ((∃ s ∈ src1, s.pathExists = false) →
      isError (generateSiteMapStage gen src1 skip fuel) = true)
    ∧ ((∃ s ∈ src2, s.pathExists = false) →
      isError (generateSubjectMapStage gen src2 addons siteMap fuel) = true)
    ∧ ((∃ s ∈ src3, s.pathExists = false) →
      isError (consolidateDatesStage src3 addons3 choice) = true) := by
  refine ⟨?_, ?_, ?_⟩ <;> intro hex
  · obtain ⟨e, he⟩ := readAll_error src1 hex
    rw [generateSiteMapStage, he]
    rfl
  · obtain ⟨e, he⟩ := readAll_error src2 hex
    rw [generateSubjectMapStage, he]
    rfl
  · obtain ⟨e, he⟩ := readAll_error src3 hex
    rw [consolidateDatesStage, he]
    rfl

/-- C9 witness: each stage at a concrete declared-sources list whose single
source is missing. -/
theorem stage_missing_source_fatal_witness :
    isError (generateSiteMapStage (fun _ => "AB") [⟨false, ["PR00001"]⟩] false 1) = true
    ∧ isError (generateSubjectMapStage (fun _ => "11111") [⟨false, ["PR00001"]⟩]
        [] [("PR", "AB")] 1) = true
    ∧ isError (consolidateDatesStage [⟨false, [("PR00001", 3)]⟩] [] (fun _ => 7))
        = true := by
  have h := stage_missing_source_fatal (fun _ => "AB") false 1
    [⟨false, ["PR00001"]⟩] [⟨false, ["PR00001"]⟩] [⟨false, [("PR00001", 3)]⟩]
    [] [] [("PR", "AB")] (fun _ => 7)
  refine ⟨?_, ?_, ?_⟩
  · exact h.1 ⟨⟨false, ["PR00001"]⟩, List.mem_cons_self _ _, rfl⟩
  · have h2 := (stage_missing_source_fatal (fun _ => "11111") false 1
      [⟨false, ["PR00001"]⟩] [⟨false, ["PR00001"]⟩] [⟨false, [("PR00001", 3)]⟩]
      [] [] [("PR", "AB")] (fun _ => 7)).2.1
    exact h2 ⟨⟨false, ["PR00001"]⟩, List.mem_cons_self _ _, rfl⟩
  · exact h.2.2 ⟨⟨false, [("PR00001", 3)]⟩, List.mem_cons_self _ _, rfl⟩

end Ampscz
